import Mathlib

/-!
Verification of the AlgoTester backtesting core: a shallow embedding of the
position/cost-basis accounting, order submission, weight normalization and
per-day snapshot logic, with theorems about the behaviour of each piece.
Prices, quantities and monetary amounts are modelled as rationals.
-/

/-- Embedding of src/strategies/base.py, get_cost_basis (lines 105-127).
The source first sets is_long = current_quantity > 0 and
is_short = current_quantity < 0, then branches exactly as below. -/
def get_cost_basis (current_cost_basis current_quantity new_quantity new_price : ℚ) : ℚ :=
  if (new_quantity > 0 ∧ current_quantity > 0) ∨ (new_quantity < 0 ∧ current_quantity < 0) then
    (current_cost_basis * |current_quantity| + new_price * |new_quantity|) /
      (|current_quantity| + |new_quantity|)
  else if |new_quantity| ≤ |current_quantity| then
    current_cost_basis
  else
    new_price

/-- Claim C1: when the new order is in the same direction as an existing nonzero
position, or the position is flat (current quantity zero) and the order opens a
position, get_cost_basis returns the volume-weighted average
(cb*|q| + p*|n|) / (|q| + |n|); in particular the flat-open case returns
new_price. -/
theorem cost_basis_same_direction_add (cb q n p : ℚ)
    (h : (0 < q ∧ 0 < n) ∨ (q < 0 ∧ n < 0) ∨ (q = 0 ∧ n ≠ 0)) :
    get_cost_basis cb q n p = (cb * |q| + p * |n|) / (|q| + |n|) ∧
      (q = 0 → get_cost_basis cb q n p = p) := by
  rcases h with ⟨hq, hn⟩ | ⟨hq, hn⟩ | ⟨hq, hn⟩
  · refine ⟨?_, fun h0 => absurd h0 (ne_of_gt hq)⟩
    rw [get_cost_basis, if_pos (Or.inl ⟨hn, hq⟩)]
  · refine ⟨?_, fun h0 => absurd h0 (ne_of_lt hq)⟩
    rw [get_cost_basis, if_pos (Or.inr ⟨hn, hq⟩)]
  · subst hq
    have habs : (0:ℚ) < |n| := abs_pos.mpr hn
    have hval : get_cost_basis cb 0 n p = p := by
      rw [get_cost_basis, if_neg, if_neg]
      · rw [abs_zero, not_le]
        exact habs
      · rintro (⟨_, h0⟩ | ⟨_, h0⟩) <;> exact lt_irrefl 0 h0
    refine ⟨?_, fun _ => hval⟩
    rw [hval, abs_zero, mul_zero, zero_add, zero_add, mul_div_assoc,
      div_self (ne_of_gt habs), mul_one]

/-- Claim C1 witness: adding 5 shares at price 110 to a long position of 10
shares with cost basis 100 yields the volume-weighted average. -/
theorem cost_basis_same_direction_add_witness :
    get_cost_basis 100 10 5 110
        = (100 * |(10:ℚ)| + 110 * |(5:ℚ)|) / (|(10:ℚ)| + |(5:ℚ)|) ∧
      ((10:ℚ) = 0 → get_cost_basis 100 10 5 110 = 110) :=
  cost_basis_same_direction_add 100 10 5 110 (Or.inl ⟨by norm_num, by norm_num⟩)

/-- Claim C2: when the new order opposes the sign of a nonzero current position
and its magnitude is at most the position's magnitude (a partial or full
close), get_cost_basis returns the current cost basis unchanged. -/
theorem cost_basis_close_unchanged (cb q n p : ℚ)
    (hopp : (0 < q ∧ n < 0) ∨ (q < 0 ∧ 0 < n)) (hle : |n| ≤ |q|) :
    get_cost_basis cb q n p = cb := by
  have hcond : ¬ ((n > 0 ∧ q > 0) ∨ (n < 0 ∧ q < 0)) := by
    rcases hopp with ⟨hq, hn⟩ | ⟨hq, hn⟩
    · rintro (⟨h1, _⟩ | ⟨_, h2⟩)
      · exact absurd h1 (not_lt.mpr (le_of_lt hn))
      · exact absurd h2 (not_lt.mpr (le_of_lt hq))
    · rintro (⟨_, h2⟩ | ⟨h1, _⟩)
      · exact absurd h2 (not_lt.mpr (le_of_lt hq))
      · exact absurd h1 (not_lt.mpr (le_of_lt hn))
  rw [get_cost_basis, if_neg hcond, if_pos hle]

/-- Claim C2 witness: selling 4 of a 10-share long at price 120 leaves the
cost basis of 100 unchanged. -/
theorem cost_basis_close_unchanged_witness :
    get_cost_basis 100 10 (-4) 120 = 100 :=
  cost_basis_close_unchanged 100 10 (-4) 120 (Or.inl ⟨by norm_num, by norm_num⟩)
    (by norm_num)

/-- Claim C3: when the new order opposes the sign of a nonzero current position
and its magnitude strictly exceeds the position's magnitude (a reversal),
get_cost_basis returns new_price exactly. -/
theorem cost_basis_reversal_price (cb q n p : ℚ)
    (hopp : (0 < q ∧ n < 0) ∨ (q < 0 ∧ 0 < n)) (hgt : |q| < |n|) :
    get_cost_basis cb q n p = p := by
  have hcond : ¬ ((n > 0 ∧ q > 0) ∨ (n < 0 ∧ q < 0)) := by
    rcases hopp with ⟨hq, hn⟩ | ⟨hq, hn⟩
    · rintro (⟨h1, _⟩ | ⟨_, h2⟩)
      · exact absurd h1 (not_lt.mpr (le_of_lt hn))
      · exact absurd h2 (not_lt.mpr (le_of_lt hq))
    · rintro (⟨_, h2⟩ | ⟨h1, _⟩)
      · exact absurd h2 (not_lt.mpr (le_of_lt hq))
      · exact absurd h1 (not_lt.mpr (le_of_lt hn))
  rw [get_cost_basis, if_neg hcond, if_neg (not_le.mpr hgt)]

/-- Claim C3 witness: selling 15 against a 10-share long at price 120 reverses
the position and sets the cost basis to 120. -/
theorem cost_basis_reversal_price_witness :
    get_cost_basis 100 10 (-15) 120 = 120 :=
  cost_basis_reversal_price 100 10 (-15) 120 (Or.inl ⟨by norm_num, by norm_num⟩)
    (by norm_num)

/-- Embedding of the realized-P&L update in BaseStrategy._submit_order
(src/strategies/base.py, lines 73-77): the amount added to
realized_pnl[ticker] for a fill of the given signed quantity at the given
price against the pre-fill position and cost basis. -/
def realized_pnl_delta (current_cost_basis current_position quantity price : ℚ) : ℚ :=
  if current_position > 0 ∧ quantity < 0 then
    (price - current_cost_basis) * min (-quantity) current_position
  else if current_position < 0 ∧ quantity > 0 then
    (current_cost_basis - price) * min quantity (-current_position)
  else 0

/-- Claim C4 counterexample: with a long position of 10 at cost basis 100, a
sell of 5 at price 100 opposes the nonzero pre-fill position, yet the realized
P&L delta is zero, so realized P&L does not change; the claimed biconditional
(realized P&L changes iff the fill opposes a nonzero position) fails. -/
theorem realized_pnl_change_iff_fails :
    ((0:ℚ) < 10 ∧ (-5:ℚ) < 0) ∧ realized_pnl_delta 100 10 (-5) 100 = 0 := by
  refine ⟨⟨by norm_num, by norm_num⟩, ?_⟩
  rw [realized_pnl_delta, if_pos ⟨by norm_num, by norm_num⟩]
  norm_num

/-- Claim C4 (amended): the realized P&L delta equals
(price - cost_basis) * min(|quantity|, |position|) when the fill sells into a
long, (cost_basis - price) * min(|quantity|, |position|) when it buys into a
short, and is zero whenever the fill does not oppose a nonzero pre-fill
position (same-direction adds and opens from flat included); hence realized
P&L can change only on an opposing fill, though an opposing fill at a price
equal to the cost basis leaves it unchanged. -/
theorem realized_pnl_delta_spec (cb pos qty price : ℚ) :
    (0 < pos → qty < 0 → realized_pnl_delta cb pos qty price
        = (price - cb) * min |qty| |pos|) ∧
    (pos < 0 → 0 < qty → realized_pnl_delta cb pos qty price
        = (cb - price) * min |qty| |pos|) ∧
    (¬ ((0 < pos ∧ qty < 0) ∨ (pos < 0 ∧ 0 < qty)) →
        realized_pnl_delta cb pos qty price = 0) := by
  refine ⟨fun hp hq => ?_, fun hp hq => ?_, fun h => ?_⟩
  · rw [realized_pnl_delta, if_pos ⟨hp, hq⟩, abs_of_neg hq, abs_of_pos hp]
  · have hnot : ¬ (pos > 0 ∧ qty < 0) := fun ⟨h1, _⟩ => absurd hp (not_lt.mpr (le_of_lt h1))
    rw [realized_pnl_delta, if_neg hnot, if_pos ⟨hp, hq⟩, abs_of_pos hq, abs_of_neg hp]
  · have h1 : ¬ (pos > 0 ∧ qty < 0) := fun hc => h (Or.inl hc)
    have h2 : ¬ (pos < 0 ∧ qty > 0) := fun hc => h (Or.inr hc)
    rw [realized_pnl_delta, if_neg h1, if_neg h2]

/-- Claim C4 witness: selling 4 of a 10-share long bought at 100 for 120
realizes (120 - 100) * min(4, 10). -/
theorem realized_pnl_delta_spec_witness :
    realized_pnl_delta 100 10 (-4) 120 = (120 - 100) * min |(-4:ℚ)| |(10:ℚ)| :=
  (realized_pnl_delta_spec 100 10 (-4) 120).1 (by norm_num) (by norm_num)

/-- Python's int() applied to a rational: truncation toward zero (floor for
nonnegative arguments, ceiling for negative ones). -/
def pyInt (q : ℚ) : ℤ := if 0 ≤ q then ⌊q⌋ else ⌈q⌉

/-- Target position of TrendFollowingStrategy.next
(src/strategies/trend_following.py, lines 17-26): portfolio value divided by
the close when the lookback return is positive, zero otherwise; no
integer truncation is applied. -/
def tf_target_position (ret pv close : ℚ) : ℚ :=
  if ret > 0 then pv / close else 0

/-- Order quantity submitted by TrendFollowingStrategy.next: target position
minus current position. -/
def tf_order_quantity (ret pv close current : ℚ) : ℚ :=
  tf_target_position ret pv close - current

/-- Target size of StaticAllocationStrategy.rebalance_portfolio
(src/strategies/static_allocation.py, lines 43-46):
int(portfolio_value * weight / close). -/
def static_target_size (pv w close : ℚ) : ℤ :=
  pyInt (pv * w / close)

/-- Target position of BuyHoldStrategy.next (src/strategies/buy_hold.py,
line 11): int(portfolio_value / close). -/
def buyhold_target (pv close : ℚ) : ℤ :=
  pyInt (pv / close)

/-- Target position of AdvancedTrendFollowingStrategy.rebalance_portfolio
(src/strategies/trend_following.py, line 207):
int(target_weight * portfolio_value / close). -/
def advanced_target_size (tw pv close : ℚ) : ℤ :=
  pyInt (tw * pv / close)

/-- Target size of MAMACStrategy.rebalance (src/strategies/trend_following.py,
lines 381-383): target_position * weight * portfolio_value / close, with no
integer truncation. -/
def mamac_target_size (tp w pv close : ℚ) : ℚ :=
  tp * w * pv / close

/-- Claim C5 counterexample: with a positive lookback return, portfolio value
100000, close 3 and a flat position, TrendFollowingStrategy submits the
quantity 100000/3, which differs from the floor 33333 and is not an integer
(denominator 3); MAMACStrategy likewise computes a non-integer target size.
Fractional share quantities are ordered. -/
theorem fractional_shares_ordered :
    tf_order_quantity 1 100000 3 0 ≠ ((33333:ℤ) : ℚ) ∧
    (⌊(1:ℚ) * 100000 / 3⌋ : ℤ) = 33333 ∧
    (tf_order_quantity 1 100000 3 0).den = 3 ∧
    (mamac_target_size 1 (1/3) 100000 1).den = 3 := by
  refine ⟨?_, ?_, ?_, ?_⟩
  · rw [tf_order_quantity, tf_target_position, if_pos (by norm_num : (1:ℚ) > 0)]
    norm_num
  · rw [Int.floor_eq_iff]
    constructor <;> norm_num
  · rw [tf_order_quantity, tf_target_position, if_pos (by norm_num : (1:ℚ) > 0)]
    norm_num
  · norm_num [mamac_target_size]

/-- Claim C5 (amended): the variants that integerize their targets
(StaticAllocationStrategy, BuyHoldStrategy, AdvancedTrendFollowingStrategy)
truncate toward zero via int(), which equals the floor whenever the target is
nonnegative; the remaining variants (TrendFollowing, DualLookback,
DualPeriodSMA, MovingAverageCrossover, MultiAssetMovingAverageCrossover,
MAMAC) submit possibly fractional share quantities. -/
theorem integer_target_variants_floor (pv w close tw : ℚ)
    (h1 : 0 ≤ pv * w / close) (h2 : 0 ≤ pv / close) (h3 : 0 ≤ tw * pv / close) :
    static_target_size pv w close = ⌊pv * w / close⌋ ∧
    buyhold_target pv close = ⌊pv / close⌋ ∧
    advanced_target_size tw pv close = ⌊tw * pv / close⌋ := by
  exact ⟨by rw [static_target_size, pyInt, if_pos h1],
    by rw [buyhold_target, pyInt, if_pos h2],
    by rw [advanced_target_size, pyInt, if_pos h3]⟩

/-- Claim C5 witness: with portfolio value 1000, weight 1/2, close 10 and
target weight 1, each integerizing variant returns the floor of its target. -/
theorem integer_target_variants_floor_witness :
    static_target_size 1000 (1/2) 10 = ⌊(1000:ℚ) * (1/2) / 10⌋ ∧
    buyhold_target 1000 10 = ⌊(1000:ℚ) / 10⌋ ∧
    advanced_target_size 1 1000 10 = ⌊(1:ℚ) * 1000 / 10⌋ :=
  integer_target_variants_floor 1000 (1/2) 10 1 (by norm_num) (by norm_num) (by norm_num)

/-- An order routed to the broker: buy or sell, with the (nonnegative) size
passed to self.buy or self.sell. -/
inductive BrokerOrder where
  | buy : ℚ → BrokerOrder
  | sell : ℚ → BrokerOrder
deriving DecidableEq

/-- Order routing of BaseStrategy._submit_order (src/strategies/base.py,
lines 57-60): a positive quantity is routed as a buy of that size, any other
quantity (zero included) as a sell of the negated quantity. -/
def route_order (quantity : ℚ) : BrokerOrder :=
  if quantity > 0 then BrokerOrder.buy quantity else BrokerOrder.sell (-quantity)

/-- The guarded submission of MultiAssetMovingAverageCrossoverStrategy and
MAMACStrategy (src/strategies/trend_following.py, lines 322-324 and 385-387):
_submit_order is called only when the difference is nonzero. -/
def guarded_submit (difference : ℚ) : Option BrokerOrder :=
  if difference ≠ 0 then some (route_order difference) else none

/-- Claim C6 counterexample: a zero target delta does not perform no action;
_submit_order routes a sell order of size 0 to the broker. -/
theorem zero_delta_routes_sell_zero :
    route_order 0 = BrokerOrder.sell 0 := by
  rw [route_order, if_neg (lt_irrefl 0)]
  norm_num

/-- Claim C6 (amended): _submit_order with a zero quantity routes a sell order
of size 0 to the broker (StaticAllocationStrategy calls it without a zero
guard), though the ledger is unaffected: the cost basis and realized P&L are
unchanged by a zero-quantity fill; only MultiAssetMovingAverageCrossoverStrategy
and MAMACStrategy guard the call, submitting nothing on a zero difference. -/
theorem zero_delta_effects (cb pos price : ℚ) :
    route_order 0 = BrokerOrder.sell 0 ∧
    get_cost_basis cb pos 0 price = cb ∧
    realized_pnl_delta cb pos 0 price = 0 ∧
    guarded_submit 0 = none := by
  refine ⟨zero_delta_routes_sell_zero, ?_, ?_, ?_⟩
  · have hcond : ¬ (((0:ℚ) > 0 ∧ pos > 0) ∨ ((0:ℚ) < 0 ∧ pos < 0)) := by
      rintro (⟨h0, _⟩ | ⟨h0, _⟩) <;> exact lt_irrefl 0 h0
    rw [get_cost_basis, if_neg hcond, if_pos (by rw [abs_zero]; exact abs_nonneg pos)]
  · have h1 : ¬ (pos > 0 ∧ (0:ℚ) < 0) := fun ⟨_, h0⟩ => lt_irrefl 0 h0
    have h2 : ¬ (pos < 0 ∧ (0:ℚ) > 0) := fun ⟨_, h0⟩ => lt_irrefl 0 h0
    rw [realized_pnl_delta, if_neg h1, if_neg h2]
  · rw [guarded_submit, if_neg (by simp)]

/-- The weight-normalization loop shared by
MultiAssetMovingAverageCrossoverStrategy.rebalance and MAMACStrategy.rebalance
(src/strategies/trend_following.py, lines 305-308 and 363-366): each weight is
divided by the total computed once before the loop. The weights are listed in
ticker order; this version assumes every division succeeds. -/
def normalize_weights (ws : List ℚ) : List ℚ :=
  ws.map (fun w => w / ws.sum)

/-- The per-ticker raw capital weights of
AdvancedTrendFollowingStrategy._calculate_atr_weights
(src/strategies/trend_following.py, lines 216-231), followed by the
normalization loop of the same function: pnls lists each ticker's
unrealized_pnl + realized_pnl, total_pnl = max(0, sum) + 1, the raw weight of
a ticker is max(0, pnl)/total_pnl + 1, and each raw weight is divided by the
sum of all raw weights. -/
def calculate_atr_weights (pnls : List ℚ) : List ℚ :=
  let total_pnl := max 0 pnls.sum + 1
  let raw := pnls.map (fun x => max 0 x / total_pnl + 1)
  raw.map (fun w => w / raw.sum)

/-- Dividing every element of a list by a common denominator divides the sum. -/
theorem list_sum_map_div (ws : List ℚ) (s : ℚ) :
    (ws.map (fun w => w / s)).sum = ws.sum / s := by
  induction ws with
  | nil => simp
  | cons a t ih =>
      rw [List.map_cons, List.sum_cons, List.sum_cons, ih, div_add_div_same]

/-- Normalizing a nonempty list of positive weights by their sum yields a list
summing to one. -/
theorem normalize_sum_one_aux (ws : List ℚ) (h : ws ≠ [])
    (hpos : ∀ w ∈ ws, 0 < w) :
    (ws.map (fun w => w / ws.sum)).sum = 1 := by
  rw [list_sum_map_div]
  exact div_self (ne_of_gt (List.sum_pos ws hpos h))

/-- Claim C7: normalizing any nonempty set of positive raw weights makes them
sum to exactly one, and the adaptive P&L-derived weights of
_calculate_atr_weights sum to exactly one for every nonempty list of
per-ticker P&L values. -/
theorem normalized_weights_sum_one (ws pnls : List ℚ) (hw : ws ≠ [])
    (hpos : ∀ w ∈ ws, 0 < w) (hp : pnls ≠ []) :
    (normalize_weights ws).sum = 1 ∧ (calculate_atr_weights pnls).sum = 1 := by
  constructor
  · exact normalize_sum_one_aux ws hw hpos
  · rw [calculate_atr_weights]
    apply normalize_sum_one_aux
    · simpa using hp
    · intro w hwmem
      rcases List.mem_map.mp hwmem with ⟨x, _, hx⟩
      have htot : (0:ℚ) < max 0 pnls.sum + 1 :=
        lt_of_lt_of_le one_pos (le_add_of_nonneg_left (le_max_left 0 pnls.sum))
      have hdiv : (0:ℚ) ≤ max 0 x / (max 0 pnls.sum + 1) :=
        div_nonneg (le_max_left 0 x) (le_of_lt htot)
      rw [← hx]
      exact lt_of_lt_of_le one_pos (le_add_of_nonneg_left hdiv)

/-- Claim C7 witness: the raw weights 1, 2 normalize to a sum of one, and the
adaptive weights derived from P&L values -5, 3 sum to one. -/
theorem normalized_weights_sum_one_witness :
    (normalize_weights [1, 2]).sum = 1 ∧ (calculate_atr_weights [-5, 3]).sum = 1 :=
  normalized_weights_sum_one [1, 2] [-5, 3] (by simp) (by decide) (by simp)

/-- Python division, with ZeroDivisionError modelled as none. -/
def py_div (a b : ℚ) : Option ℚ :=
  if b = 0 then none else some (a / b)

/-- The weight-normalization loop of MAMACStrategy.rebalance and
MultiAssetMovingAverageCrossoverStrategy.rebalance
(src/strategies/trend_following.py, lines 363-366 and 305-308) with Python
division semantics: every weight is divided by the total computed once before
the loop, and the whole loop raises (none) as soon as one division divides by
zero. An empty weights mapping performs no division at all. -/
def normalize_weights_run (ws : List ℚ) : Option (List ℚ) :=
  ws.mapM (fun w => py_div w ws.sum)

/-- The Sharpe computation of BackTester._calculate_metrics
(src/utils/backtester.py, line 99): cagr / volatility if volatility is
nonzero, else 0. -/
def sharpe (cagr volatility : ℚ) : ℚ :=
  if volatility ≠ 0 then cagr / volatility else 0

/-- Claim C8 counterexample: the weight normalization has no zero-total guard;
on the weights mapping with the single entry 0 the total weight is 0 and the
normalization loop raises ZeroDivisionError (modelled as none) instead of
being special-cased. -/
theorem normalization_zero_total_crashes :
    normalize_weights_run [0] = none := by
  have h : py_div (0:ℚ) ([0] : List ℚ).sum = none := by
    rw [py_div, if_pos (by simp)]
  rw [normalize_weights_run, List.mapM_cons, h]
  rfl

/-- Claim C8 (amended): the Sharpe-ratio computation explicitly special-cases
zero volatility (returning 0) and divides only when the volatility is nonzero,
but the weight normalizations of MultiAssetMovingAverageCrossoverStrategy and
MAMACStrategy have no zero-total guard: whenever the weights are nonempty and
sum to zero, the normalization loop divides by zero and crashes. -/
theorem sharpe_guard_normalize_unguarded (c v : ℚ) (ws : List ℚ) :
    sharpe c 0 = 0 ∧
    (v ≠ 0 → sharpe c v = c / v) ∧
    (ws ≠ [] → ws.sum = 0 → normalize_weights_run ws = none) := by
  refine ⟨by rw [sharpe, if_neg (by simp)], fun hv => by rw [sharpe, if_pos hv], ?_⟩
  intro hne hsum
  rcases ws with _ | ⟨a, t⟩
  · exact absurd rfl hne
  · rw [normalize_weights_run, List.mapM_cons, hsum, py_div, if_pos rfl]
    rfl

/-- Claim C8 witness: Sharpe is 0 at zero volatility and 5/2 at volatility 2,
and normalizing the nonempty zero-total weights 1, -1 crashes. -/
theorem sharpe_guard_normalize_unguarded_witness :
    sharpe 5 0 = 0 ∧ sharpe 5 2 = 5 / 2 ∧ normalize_weights_run [1, -1] = none :=
  ⟨(sharpe_guard_normalize_unguarded 5 2 [1, -1]).1,
    (sharpe_guard_normalize_unguarded 5 2 [1, -1]).2.1 (by norm_num),
    (sharpe_guard_normalize_unguarded 5 2 [1, -1]).2.2 (by simp) (by norm_num)⟩

/-- Per-ticker ledger state maintained by BaseStrategy
(src/strategies/base.py, lines 14-19). -/
structure LedgerState where
  position : ℚ
  cost_basis : ℚ
  realized_pnl : ℚ
deriving DecidableEq

/-- The per-ticker content of the row appended to portfolio_tracker by
BaseStrategy._track_portfolio (src/strategies/base.py, lines 36-52):
unrealized P&L and position value are recomputed from the current close and
position, and the current cost basis, realized P&L and position size are
recorded as they stand. -/
structure Snapshot where
  position_size : ℚ
  cost_basis : ℚ
  realized_pnl : ℚ
  position_value : ℚ
  unrealized_pnl : ℚ
deriving DecidableEq

/-- Builds the snapshot row from the ledger state and the day's close
(src/strategies/base.py, lines 36-38 and 46-50). -/
def track_portfolio_row (s : LedgerState) (close : ℚ) : Snapshot :=
  ⟨s.position, s.cost_basis, s.realized_pnl, close * s.position,
    (close - s.cost_basis) * s.position⟩

/-- Ledger effect of BaseStrategy._submit_order (src/strategies/base.py,
lines 62-77) together with the broker's assumed immediate full fill: the
position grows by the filled quantity, the cost basis is recomputed by
get_cost_basis against the pre-fill position, and the realized P&L accrues
realized_pnl_delta. -/
def apply_fill (s : LedgerState) (quantity price : ℚ) : LedgerState :=
  ⟨s.position + quantity,
    get_cost_basis s.cost_basis s.position quantity price,
    s.realized_pnl + realized_pnl_delta s.cost_basis s.position quantity price⟩

/-- One simulated day of BuyHoldStrategy (src/strategies/buy_hold.py, lines
9-16): super().next() records the snapshot row first, then the strategy
computes the integer target int(portfolio_value / close) and submits the delta
order whenever the target differs from the current position. Returns the
recorded snapshot and the end-of-day ledger state. -/
def buyhold_next (s : LedgerState) (pv close : ℚ) : Snapshot × LedgerState :=
  let snap := track_portfolio_row s close
  if (buyhold_target pv close : ℚ) ≠ s.position then
    (snap, apply_fill s ((buyhold_target pv close : ℚ) - s.position) close)
  else
    (snap, s)

/-- Claim C9 counterexample: starting flat with portfolio value 1000 and close
10, the buy-and-hold day buys 100 shares, yet the snapshot recorded that day
shows position size 0: the snapshot is appended before the day's order is
submitted and does not reflect that day's fill. -/
theorem snapshot_misses_same_day_fill :
    (buyhold_next ⟨0, 0, 0⟩ 1000 10).1.position_size = 0 ∧
    (buyhold_next ⟨0, 0, 0⟩ 1000 10).2.position = 100 ∧
    (buyhold_next ⟨0, 0, 0⟩ 1000 10).1.position_size
      ≠ (buyhold_next ⟨0, 0, 0⟩ 1000 10).2.position := by
  have htarget : buyhold_target 1000 10 = 100 := by
    rw [buyhold_target, pyInt, if_pos (by norm_num : (0:ℚ) ≤ 1000 / 10),
      show (1000:ℚ) / 10 = ((100:ℤ):ℚ) by norm_num, Int.floor_intCast]
  have hne : ((buyhold_target 1000 10 : ℤ) : ℚ) ≠ (0:ℚ) := by
    rw [htarget]; norm_num
  have hday : buyhold_next ⟨0, 0, 0⟩ 1000 10
      = (track_portfolio_row ⟨0, 0, 0⟩ 10,
          apply_fill ⟨0, 0, 0⟩ ((buyhold_target 1000 10 : ℚ) - 0) 10) := by
    rw [buyhold_next, if_pos hne]
  rw [hday]
  refine ⟨rfl, ?_, ?_⟩ <;> rw [apply_fill, htarget] <;>
    simp [track_portfolio_row]

/-- Claim C9 (amended): each simulated day records exactly one snapshot row,
taken before the day's order is submitted: the recorded row is built from the
ledger state carried in from previous days, and when the day's integer target
differs from the current position, the fill is applied only after the snapshot
and leaves the end-of-day position at the target while the snapshot still
shows the pre-fill position. -/
theorem snapshot_precedes_orders (s : LedgerState) (pv close : ℚ)
    (h : (buyhold_target pv close : ℚ) ≠ s.position) :
    (buyhold_next s pv close).1 = track_portfolio_row s close ∧
    (buyhold_next s pv close).2.position = ((buyhold_target pv close : ℤ) : ℚ) := by
  rw [buyhold_next, if_pos h]
  exact ⟨rfl, by rw [apply_fill]; exact add_sub_cancel s.position _⟩

/-- Claim C9 witness: from a flat ledger with portfolio value 1000 and close
10, the day's snapshot equals the pre-order row and the end-of-day position
equals the target. -/
theorem snapshot_precedes_orders_witness :
    (buyhold_next ⟨0, 0, 0⟩ 1000 10).1 = track_portfolio_row ⟨0, 0, 0⟩ 10 ∧
    (buyhold_next ⟨0, 0, 0⟩ 1000 10).2.position = ((buyhold_target 1000 10 : ℤ) : ℚ) :=
  snapshot_precedes_orders ⟨0, 0, 0⟩ 1000 10 (by
    rw [buyhold_target, pyInt, if_pos (by norm_num : (0:ℚ) ≤ 1000 / 10),
      show (1000:ℚ) / 10 = ((100:ℤ):ℚ) by norm_num, Int.floor_intCast]
    norm_num)

/-- weights.get(ticker, 0) in StaticAllocationStrategy.rebalance_portfolio
(src/strategies/static_allocation.py, line 39): the configured weight of a
ticker, defaulting to 0 when the ticker is absent from the weights mapping.
Tickers are identified by natural numbers. -/
def weight_lookup (weights : List (ℕ × ℚ)) (ticker : ℕ) : ℚ :=
  match weights.find? (fun p => p.1 == ticker) with
  | some p => p.2
  | none => 0

/-- The rebalance loop of StaticAllocationStrategy.rebalance_portfolio
(src/strategies/static_allocation.py, lines 38-53): a ticker whose looked-up
weight is 0 is skipped via continue; otherwise the integer target size
int(portfolio_value * weight / close) is computed and the delta order is
submitted unconditionally, the fill updating that ticker's ledger entry.
Returns the submitted orders tagged by ticker, and the final ledger. -/
def static_rebalance (tickers : List ℕ) (weights : List (ℕ × ℚ)) (pv : ℚ)
    (prices : ℕ → ℚ) (ledger : ℕ → LedgerState) :
    List (ℕ × BrokerOrder) × (ℕ → LedgerState) :=
  match tickers with
  | [] => ([], ledger)
  | t :: rest =>
      let w := weight_lookup weights t
      if w = 0 then
        static_rebalance rest weights pv prices ledger
      else
        let close := prices t
        let quantity := (static_target_size pv w close : ℚ) - (ledger t).position
        let updated := fun x => if x = t then apply_fill (ledger t) quantity close else ledger x
        let res := static_rebalance rest weights pv prices updated
        ((t, route_order quantity) :: res.1, res.2)

/-- Claim C10: on a static-allocation rebalance, a ticker whose configured
weight is zero or which is absent from the weights mapping is skipped: no
order is submitted for it, and its ledger entry (position, cost basis,
realized P&L) is left exactly as it was, so an existing nonzero position in it
is never closed. -/
theorem zero_weight_ticker_untouched (tickers : List ℕ) (weights : List (ℕ × ℚ))
    (pv : ℚ) (prices : ℕ → ℚ) (ledger : ℕ → LedgerState) (ticker : ℕ)
    (h : weights.find? (fun p => p.1 == ticker) = none
        ∨ weight_lookup weights ticker = 0) :
    ticker ∉ (static_rebalance tickers weights pv prices ledger).1.map Prod.fst ∧
    (static_rebalance tickers weights pv prices ledger).2 ticker = ledger ticker := by
  have hw : weight_lookup weights ticker = 0 := by
    rcases h with h | h
    · rw [weight_lookup, h]
    · exact h
  induction tickers generalizing ledger with
  | nil => exact ⟨by simp [static_rebalance], rfl⟩
  | cons t rest ih =>
      by_cases hwt : weight_lookup weights t = 0
      · rw [static_rebalance, if_pos hwt]
        exact ih ledger
      · have hne : ticker ≠ t := fun he => hwt (he ▸ hw)
        rw [static_rebalance, if_neg hwt]
        set quantity := (static_target_size pv (weight_lookup weights t) (prices t) : ℚ)
          - (ledger t).position with hqdef
        set updated := fun x =>
          if x = t then apply_fill (ledger t) quantity (prices t) else ledger x with hudef
        have hupd : updated ticker = ledger ticker := by
          rw [hudef]
          exact if_neg hne
        refine ⟨?_, ?_⟩
        · rw [List.map_cons]
          intro hmem
          rcases List.mem_cons.mp hmem with he | hmem2
          · exact hne he
          · exact (ih updated).1 hmem2
        · rw [(ih updated).2, hupd]

/-- Claim C10 witness: rebalancing over tickers 1 and 2 with only ticker 1
weighted submits no order for ticker 2 and leaves its ledger entry (a 5-share
position with cost basis 100) untouched. -/
theorem zero_weight_ticker_untouched_witness :
    2 ∉ (static_rebalance [1, 2] [(1, 1)] 1000 (fun _ => 10)
        (fun _ => ⟨5, 100, 0⟩)).1.map Prod.fst ∧
    (static_rebalance [1, 2] [(1, 1)] 1000 (fun _ => 10)
        (fun _ => ⟨5, 100, 0⟩)).2 2 = (fun _ => (⟨5, 100, 0⟩ : LedgerState)) 2 :=
  zero_weight_ticker_untouched [1, 2] [(1, 1)] 1000 (fun _ => 10)
    (fun _ => ⟨5, 100, 0⟩) 2 (Or.inl rfl)
